import Mathlib

/-!
Verification of `algorithmic_efficiency/workloads/mnist/mnist_pytorch/workload.py`
(the PyTorch MNIST workload adapter) against its design specification.

The embedding models:
* tensors as nested lists (content and shape are explicit);
* the batch-distribution protocol of `MnistWorkload._build_input_queue`
  (DDP collective path vs. single-process reshape path);
* `is_output_params`, `loss_fn` (PyTorch `F.cross_entropy` with label
  smoothing, modelled over `ℝ`), `model_fn` (with the module's
  train/eval flag made explicit state) and `_eval_model`.
-/

set_option maxHeartbeats 1000000

namespace MnistPytorch

/-! ## Tensors as nested lists -/

/-- A rank-1 tensor. -/
abbrev T1 (α : Type) : Type := List α

/-- A rank-2 tensor. -/
abbrev T2 (α : Type) : Type := List (T1 α)

/-- A rank-3 tensor. -/
abbrev T3 (α : Type) : Type := List (T2 α)

/-- A rank-4 tensor. -/
abbrev T4 (α : Type) : Type := List (T3 α)

/-- A rank-5 tensor. -/
abbrev T5 (α : Type) : Type := List (T4 α)

/-- `t` has shape `[a]`. -/
def shapeIs1 (t : T1 α) (a : ℕ) : Bool :=
  t.length == a

/-- `t` has shape `[a, b]`. -/
def shapeIs2 (t : T2 α) (a b : ℕ) : Bool :=
  (t.length == a) && t.all fun x => shapeIs1 x b

/-- `t` has shape `[a, b, c]`. -/
def shapeIs3 (t : T3 α) (a b c : ℕ) : Bool :=
  (t.length == a) && t.all fun x => shapeIs2 x b c

/-- `t` has shape `[a, b, c, d]`. -/
def shapeIs4 (t : T4 α) (a b c d : ℕ) : Bool :=
  (t.length == a) && t.all fun x => shapeIs3 x b c d

/-- `t` has shape `[a, b, c, d, e]`. -/
def shapeIs5 (t : T5 α) (a b c d e : ℕ) : Bool :=
  (t.length == a) && t.all fun x => shapeIs4 x b c d e

/-- Permutation `(2, 0, 1)` of the non-batch axes of one example: a
`[H, W, C]`-shaped tensor becomes `[C, H, W]`-shaped, with
`result[c][h][w] = x[h][w][c]`.  Dimensions are read off the (rectangular)
tensor itself, as PyTorch's `permute` does. -/
def permute201 [Inhabited α] (x : T3 α) : T3 α :=
  let h := x.length
  let w := (x.headD []).length
  let c := ((x.headD []).headD []).length
  (List.range c).map fun k =>
    (List.range h).map fun i =>
      (List.range w).map fun j =>
        ((x.getD i []).getD j []).getD k default

/-- `inputs.permute(0, 3, 1, 2)` from the source: batch axis kept, each
example permuted from channel-last `[H, W, C]` to channel-first `[C, H, W]`. -/
def permute0312 [Inhabited α] (t : T4 α) : T4 α :=
  t.map permute201

/-! ## The batch distributor (`MnistWorkload._build_input_queue`) -/

/-- The raw batch the coordinator (rank 0) pulls from the upstream pipeline,
already shaped `[num_workers, per_device_batch_size, ...]`:
`inputs : [N, B, 28, 28, 1]`, `targets : [N, B]`, `weights : [N, B]`. -/
structure RawBatch (α β γ : Type) where
  inputs : T5 α
  targets : T2 β
  weights : T2 γ

/-- A batch as yielded to one consumer of the input queue. -/
structure Batch (α β γ : Type) where
  inputs : T4 α
  targets : T1 β
  weights : T1 γ

/-- Line 57 of the source: `per_device_batch_size = int(global_batch_size / N_GPUS)`:
the true quotient truncated to an integer (floor, for non-negative operands). -/
def perDeviceBatchSize (globalBatchSize nGpus : ℕ) : ℕ :=
  globalBatchSize / nGpus

/-- The DDP (multi-process collective) path of `_build_input_queue`, lines
78-84 and 89-110: after `dist.broadcast` every rank holds the coordinator's
`[N, B, ...]` tensors, selects its own slice along the first axis by its rank
(rank 0 selects index 0), then permutes `inputs` to channel-first. -/
def modeAYield [Inhabited α] (raw : RawBatch α β γ) (rank : ℕ) : Batch α β γ :=
  { inputs := permute0312 (raw.inputs.getD rank [])
    targets := raw.targets.getD rank []
    weights := raw.weights.getD rank [] }

/-- The single-process path of `_build_input_queue`, lines 85-88 and 106-110:
`view(-1, *shape[2:])` flattens the worker axis into the batch axis, then
`inputs` is permuted to channel-first. -/
def modeBYield [Inhabited α] (raw : RawBatch α β γ) : Batch α β γ :=
  { inputs := permute0312 raw.inputs.flatten
    targets := raw.targets.flatten
    weights := raw.weights.flatten }

/-- One yield of the input queue: the DDP branch when `usePytorchDDP`,
otherwise the single-process reshape branch (which ignores the rank: only
one process exists). -/
def buildInputQueueYield [Inhabited α] (usePytorchDDP : Bool)
    (raw : RawBatch α β γ) (rank : ℕ) : Batch α β γ :=
  if usePytorchDDP then modeAYield raw rank else modeBYield raw

/-! ## `is_output_params` -/

/-- Line 133-134 of the source:
`return param_key in ['net.layer2.weight', 'net_layer2.bias']`. -/
def is_output_params (param_key : String) : Bool :=
  ["net.layer2.weight", "net_layer2.bias"].contains param_key

/-- The parameter names of `_Model` (lines 22-34): a `Sequential` named `net`
with linear sublayers `layer1` and `layer2` (the sigmoid has no parameters),
so PyTorch names the parameters `net.<layer>.{weight, bias}`. -/
def modelParameterNames : List String :=
  ["net.layer1.weight", "net.layer1.bias", "net.layer2.weight", "net.layer2.bias"]

/-! ## Loss (`MnistWorkload.loss_fn`) -/

/-- PyTorch's `F.cross_entropy(logits, label, reduction='none', label_smoothing=ls)`
for one example, per its documented semantics: with the smoothed target
distribution `q c = (1 - ls) * 1[c = label] + ls / K`, the loss is
`-∑ c, q c * log_softmax(logits) c`, computed through
`log_softmax(logits) c = logits c - log (∑ cc, exp (logits cc))`. -/
noncomputable def crossEntropy (K : ℕ) (logits : Fin K → ℝ) (label : Fin K)
    (ls : ℝ) : ℝ :=
  -∑ c, ((1 - ls) * (if c = label then 1 else 0) + ls / K) *
    (logits c - Real.log (∑ c', Real.exp (logits c')))

/-- The denominator of `loss_fn`'s mean: `mask_batch.sum()` when a mask is
given, `len(per_example_losses)` otherwise (lines 172-176 of the source). -/
noncomputable def numValidExamples (n : ℕ) (mask : Option (Fin n → ℝ)) : ℝ :=
  match mask with
  | some m => ∑ i, m i
  | none => (n : ℝ)

/-- Lines 160-178 of the source: per-example losses from `F.cross_entropy`
with `reduction='none'`, multiplied in place by the mask when one is given,
then `(summed_loss / n_valid_examples, per_example_losses)`. -/
noncomputable def loss_fn (n K : ℕ) (label_batch : Fin n → Fin K)
    (logits_batch : Fin n → Fin K → ℝ) (mask_batch : Option (Fin n → ℝ))
    (label_smoothing : ℝ) : ℝ × (Fin n → ℝ) :=
  let per0 : Fin n → ℝ := fun i =>
    crossEntropy K (logits_batch i) (label_batch i) label_smoothing
  let per_example_losses : Fin n → ℝ :=
    match mask_batch with
    | some m => fun i => per0 i * m i
    | none => per0
  let summed_loss := ∑ i, per_example_losses i
  (summed_loss / numValidExamples n mask_batch, per_example_losses)

/-! ## The model and `model_fn` -/

/-- The parameters of `_Model` (lines 22-34): `net.layer1` is
`Linear(784, 128)` and `net.layer2` is `Linear(128, 10)`, each with a bias. -/
structure MLPParams where
  w1 : Fin 128 → Fin 784 → ℝ
  b1 : Fin 128 → ℝ
  w2 : Fin 10 → Fin 128 → ℝ
  b2 : Fin 10 → ℝ

/-- One `[1, 28, 28]` channel-first input image, as fed to the model. -/
abbrev InputImage : Type := Fin 1 → Fin 28 → Fin 28 → ℝ

/-- `x.view(x.size()[0], -1)` (line 42): row-major flattening of one
`[1, 28, 28]` image into a vector of 784 entries. -/
def flattenImage (img : InputImage) (k : Fin 784) : ℝ :=
  img ⟨0, Nat.zero_lt_one⟩ ⟨k.val / 28, by have h := k.isLt; omega⟩
    ⟨k.val % 28, Nat.mod_lt _ (by omega)⟩

/-- `torch.nn.Sigmoid`: `1 / (1 + exp (-x))`. -/
noncomputable def sigmoid (x : ℝ) : ℝ :=
  1 / (1 + Real.exp (-x))

/-- The forward pass of `_Model` (lines 41-43): flatten each example,
apply `layer1`, the sigmoid, then `layer2`; raw class scores come out. -/
noncomputable def modelForward (p : MLPParams) (x : Fin n → InputImage) :
    Fin n → Fin 10 → ℝ :=
  fun i c =>
    p.b2 c + ∑ j, p.w2 c j * sigmoid (p.b1 j + ∑ k, p.w1 j k * flattenImage (x i) k)

/-- `spec.ForwardPassMode`. -/
inductive ForwardPassMode where
  | TRAIN : ForwardPassMode
  | EVAL : ForwardPassMode
  deriving DecidableEq

/-- The module's train/eval flag: the piece of module state that `model_fn`
mutates through `model.eval()` (line 149).  A freshly constructed module has
`training = true`. -/
structure ModuleState where
  training : Bool

/-- Lines 136-156 of the source: `model.eval()` is called iff the mode is
EVAL (TRAIN never calls `model.train()`), the forward pass runs under
`torch.no_grad()` for EVAL and `contextlib.nullcontext()` for TRAIN, and the
logits are returned.  The embedding returns the logits, the module state
after the call, and whether gradient tracking was enabled. -/
noncomputable def model_fn (p : MLPParams) (st : ModuleState)
    (inputs : Fin n → InputImage) (mode : ForwardPassMode) :
    (Fin n → Fin 10 → ℝ) × ModuleState × Bool :=
  let st' := if mode = ForwardPassMode.EVAL then { training := false } else st
  (modelForward p inputs, st', decide (mode = ForwardPassMode.TRAIN))

/-! ## Evaluation (`MnistWorkload._eval_model`) -/

/-- `torch.max(logits.data, 1)`'s index output for one example: the first
index attaining the maximal score. -/
noncomputable def argmax10 (v : Fin 10 → ℝ) : Fin 10 :=
  (List.finRange 10).foldl (fun best c => if v best < v c then c else best) 0

/-- A batch as `_eval_model` receives it: channel-first images, integer
class targets, and an optional per-example weight vector. -/
structure EvalBatch (n : ℕ) where
  inputs : Fin n → InputImage
  targets : Fin n → Fin 10
  weights : Option (Fin n → ℝ)

/-- Lines 180-202 of the source: forward pass in EVAL mode, weights default
to all ones when the batch has none, `predicted` is the per-example arg-max,
`accuracy = ((predicted == targets) * weights).sum()`, and
`loss = per_example_losses.sum()` where the per-example losses come from
`loss_fn(targets, logits, weights)`.  The result is
`((accuracy, loss), module state after the call)`. -/
noncomputable def _eval_model (p : MLPParams) (st : ModuleState)
    (b : EvalBatch n) : (ℝ × ℝ) × ModuleState :=
  let r := model_fn p st b.inputs ForwardPassMode.EVAL
  let logits := r.1
  let weights : Fin n → ℝ :=
    match b.weights with
    | some w => w
    | none => fun _ => 1
  let predicted : Fin n → Fin 10 := fun i => argmax10 (logits i)
  let accuracy : ℝ := ∑ i, (if predicted i = b.targets i then (1 : ℝ) else 0) * weights i
  let per_example_losses := (loss_fn n 10 b.targets logits (some weights) 0).2
  let loss : ℝ := ∑ i, per_example_losses i
  ((accuracy, loss), r.2.1)

/-! ## Theorems -/

/-- C1: the spec demands `is_output_params` be true exactly for the final
linear layer's weight and bias names.  The code's list contains the typo
`'net_layer2.bias'` (underscore for dot), a string that names no parameter of
`_Model`, so the real bias name `'net.layer2.bias'` is classified false. -/
theorem C1_is_output_params_code_bug :
    is_output_params "net.layer2.weight" = true ∧
    is_output_params "net.layer2.bias" = false ∧
    is_output_params "net_layer2.bias" = true ∧
    "net.layer2.bias" ∈ modelParameterNames ∧
    "net_layer2.bias" ∉ modelParameterNames := by
  decide

/-- C10: `model_fn` mutates the train/eval flag asymmetrically: an EVAL call
sets the module's training flag to false persistently, a TRAIN call never
sets it back, so after any EVAL call a TRAIN-mode call still runs the module
flagged as eval; the logits are unaffected and only the gradient-tracking
flag differs between the two modes. -/
theorem C10_model_fn_eval_flag_asymmetry (p : MLPParams) (st : ModuleState)
    (n : ℕ) (inputs : Fin n → InputImage) :
    (model_fn p st inputs ForwardPassMode.EVAL).2.1.training = false ∧
    (model_fn p st inputs ForwardPassMode.TRAIN).2.1 = st ∧
    (model_fn p (model_fn p st inputs ForwardPassMode.EVAL).2.1 inputs
        ForwardPassMode.TRAIN).2.1.training = false ∧
    (model_fn p (model_fn p st inputs ForwardPassMode.EVAL).2.1 inputs
        ForwardPassMode.TRAIN).1 =
      (model_fn p st inputs ForwardPassMode.EVAL).1 ∧
    (model_fn p st inputs ForwardPassMode.TRAIN).2.2 = true ∧
    (model_fn p st inputs ForwardPassMode.EVAL).2.2 = false := by
  simp [model_fn]

/-- C8: `per_device_batch_size = int(global_batch_size / N_GPUS)` is the
truncation (floor, for non-negative operands) of the true quotient; when the
worker count does not divide the global batch size the function still
returns a value (no error) and the covered examples fall short of the
global batch size: the remainder is silently dropped. -/
theorem C8_per_device_batch_size_truncates (g N : ℕ) (hN : 0 < N)
    (hnd : ¬ (N ∣ g)) :
    perDeviceBatchSize g N = ⌊(g : ℚ) / (N : ℚ)⌋₊ ∧
    N * perDeviceBatchSize g N < g := by
  constructor
  · rw [perDeviceBatchSize, Nat.floor_div_nat]
    simp
  · have h1 := Nat.div_add_mod g N
    have h2 : g % N ≠ 0 := fun h => hnd (Nat.dvd_of_mod_eq_zero h)
    simp only [perDeviceBatchSize]
    omega

/-- Witness for C8 at `global_batch_size = 5`, `N_GPUS = 2`. -/
theorem C8_witness :
    0 < 2 ∧ ¬ (2 ∣ 5) ∧
    (perDeviceBatchSize 5 2 = ⌊((5 : ℕ) : ℚ) / ((2 : ℕ) : ℚ)⌋₊ ∧
      2 * perDeviceBatchSize 5 2 < 5) :=
  ⟨by decide, by decide, C8_per_device_batch_size_truncates 5 2 (by decide) (by decide)⟩

/-- C6: the scalar loss with an all-ones mask equals the scalar loss with no
mask, and both equal the standard mean cross-entropy over the full batch. -/
theorem C6_all_ones_mask_eq_no_mask (n K : ℕ) (label_batch : Fin n → Fin K)
    (logits_batch : Fin n → Fin K → ℝ) (ls : ℝ) :
    (loss_fn n K label_batch logits_batch (some fun _ => 1) ls).1 =
      (loss_fn n K label_batch logits_batch none ls).1 ∧
    (loss_fn n K label_batch logits_batch (some fun _ => 1) ls).1 =
      (∑ i, crossEntropy K (logits_batch i) (label_batch i) ls) / n := by
  simp [loss_fn, numValidExamples]

/-- C7: with an all-zero mask the valid-example count computed by `loss_fn`
is `0`, and the returned scalar is the unguarded quotient of the summed
per-example losses by that zero denominator — no special case intervenes.
(In floating point this division by zero yields NaN; the real-number
embedding uses the total division of `ℝ`.) -/
theorem C7_zero_mask_divides_by_zero (n K : ℕ) (label_batch : Fin n → Fin K)
    (logits_batch : Fin n → Fin K → ℝ) (ls : ℝ) :
    numValidExamples n (some fun _ => (0 : ℝ)) = 0 ∧
    (loss_fn n K label_batch logits_batch (some fun _ => 0) ls).1 =
      (∑ i, (loss_fn n K label_batch logits_batch (some fun _ => 0) ls).2 i) / 0 := by
  constructor
  · simp [numValidExamples]
  · simp [loss_fn, numValidExamples]

/-- C9: with a mask present, the per-example vector `loss_fn` returns is the
mask-multiplied vector (the in-place `per_example_losses *= mask_batch`), so
an example whose mask value is `0` has per-example loss exactly `0`. -/
theorem C9_masked_out_example_loss_zero (n K : ℕ) (label_batch : Fin n → Fin K)
    (logits_batch : Fin n → Fin K → ℝ) (m : Fin n → ℝ) (ls : ℝ) (i : Fin n)
    (h : m i = 0) :
    (loss_fn n K label_batch logits_batch (some m) ls).2 =
      (fun j => crossEntropy K (logits_batch j) (label_batch j) ls * m j) ∧
    (loss_fn n K label_batch logits_batch (some m) ls).2 i = 0 := by
  constructor
  · rfl
  · simp [loss_fn, h]

/-- Witness for C9: a two-example batch whose first example is masked out. -/
theorem C9_witness :
    (if (0 : Fin 2) = 0 then (0 : ℝ) else 1) = 0 ∧
    (loss_fn 2 2 (fun _ => 0) (fun _ _ => 0)
        (some fun j => if j = 0 then 0 else 1) 0).2 0 = 0 :=
  ⟨by simp, (C9_masked_out_example_loss_zero 2 2 (fun _ => 0) (fun _ _ => 0)
      (fun j => if j = 0 then 0 else 1) 0 0 (by simp)).2⟩

/-- The log-sum-exp form of `crossEntropy` agrees with the textbook
"softmax probabilities vs. smoothed targets" form: each class's log-softmax
equals the log of `exp (score) / ∑ exp (scores)`. -/
theorem crossEntropy_softmax_form (K : ℕ) (logits : Fin K → ℝ) (label : Fin K)
    (ls : ℝ) :
    crossEntropy K logits label ls =
      -∑ c, ((1 - ls) * (if c = label then 1 else 0) + ls / K) *
        Real.log (Real.exp (logits c) / ∑ c', Real.exp (logits c')) := by
  unfold crossEntropy
  congr 1
  refine Finset.sum_congr rfl fun c _ => ?_
  have hpos : 0 < ∑ c', Real.exp (logits c') :=
    Finset.sum_pos (fun c' _ => Real.exp_pos _) ⟨c, Finset.mem_univ c⟩
  rw [Real.log_div (Real.exp_ne_zero _) (ne_of_gt hpos), Real.log_exp]

/-- C3: `loss_fn` returns, as its scalar, the sum of the mask-multiplied
per-example cross-entropy losses (mask value `1` when no mask is given)
divided by the valid-example count (sum of the mask, or the batch size when
no mask is given), together with the per-example vector; and the per-example
loss is exactly the softmax cross-entropy against the symmetrically
label-smoothed target distribution. -/
theorem C3_loss_fn_spec (n K : ℕ) (label_batch : Fin n → Fin K)
    (logits_batch : Fin n → Fin K → ℝ) (mask_batch : Option (Fin n → ℝ))
    (ls : ℝ) :
    (loss_fn n K label_batch logits_batch mask_batch ls).1 =
      (∑ i, (mask_batch.elim 1 fun m => m i) *
          crossEntropy K (logits_batch i) (label_batch i) ls) /
        (mask_batch.elim (n : ℝ) fun m => ∑ i, m i) ∧
    (∀ i, (loss_fn n K label_batch logits_batch mask_batch ls).2 i =
      (mask_batch.elim 1 fun m => m i) *
        crossEntropy K (logits_batch i) (label_batch i) ls) ∧
    (∀ i, crossEntropy K (logits_batch i) (label_batch i) ls =
      -∑ c, ((1 - ls) * (if c = label_batch i then 1 else 0) + ls / K) *
        Real.log (Real.exp (logits_batch i c) / ∑ c', Real.exp (logits_batch i c'))) := by
  refine ⟨?_, ?_, fun i => crossEntropy_softmax_form K (logits_batch i) (label_batch i) ls⟩
  · cases mask_batch with
    | none => simp [loss_fn, numValidExamples]
    | some m => simp [loss_fn, numValidExamples, mul_comm]
  · intro i
    cases mask_batch with
    | none => simp [loss_fn]
    | some m => simp [loss_fn, mul_comm]

/-- C4: `_eval_model` runs the forward pass in EVAL mode (leaving the module
flagged eval), takes the per-example arg-max as the prediction, and returns
the masked count of correct predictions as `accuracy` and the masked sum
(not mean) of per-example cross-entropy losses as `loss`; a missing weight
vector defaults to all ones. -/
theorem C4_eval_model_spec (p : MLPParams) (st : ModuleState) (n : ℕ)
    (b : EvalBatch n) :
    (_eval_model p st b).1.1 =
      ∑ i, (if argmax10 ((model_fn p st b.inputs ForwardPassMode.EVAL).1 i) = b.targets i
            then (1 : ℝ) else 0) * (b.weights.elim 1 fun w => w i) ∧
    (_eval_model p st b).1.2 =
      ∑ i, (b.weights.elim 1 fun w => w i) *
        crossEntropy 10 ((model_fn p st b.inputs ForwardPassMode.EVAL).1 i) (b.targets i) 0 ∧
    (_eval_model p st b).2.training = false := by
  refine ⟨?_, ?_, ?_⟩
  · cases hw : b.weights with
    | none => simp [_eval_model, hw]
    | some w => simp [_eval_model, hw]
  · cases hw : b.weights with
    | none => simp [_eval_model, loss_fn, hw, mul_comm]
    | some w => simp [_eval_model, loss_fn, hw, mul_comm]
  · simp [_eval_model, model_fn]

/-- Reading a list back out slice by slice over the full index range
reproduces the list. -/
theorem list_range_map_getD {X : Type} (d : X) (t : List X) :
    (List.range t.length).map (fun r => t.getD r d) = t := by
  induction t with
  | nil => rfl
  | cons a t ih =>
    rw [List.length_cons, List.range_succ_eq_map, List.map_cons, List.map_map]
    simp only [List.getD_cons_zero]
    have he : ((fun r => (a :: t).getD r d) ∘ Nat.succ) = fun r => t.getD r d := by
      funext r
      simp [Nat.succ_eq_add_one, List.getD_cons_succ]
    rw [he, ih]

/-- C2: the multi-process collective path (broadcast, then each rank selects
its slice of the `[N, B, ...]` tensors) and the single-process path
(flattening the worker axis into the batch axis) carry the same aggregate
content: concatenating the worker batches of mode A in rank order gives
exactly the mode B batch, for inputs, targets and weights alike. -/
theorem C2_distribution_preserves_content {α β γ : Type} [Inhabited α]
    (raw : RawBatch α β γ) (N : ℕ) (hN : raw.inputs.length = N)
    (ht : raw.targets.length = N) (hw : raw.weights.length = N) :
    ((List.range N).map fun r => (modeAYield raw r).inputs).flatten =
      (modeBYield raw).inputs ∧
    ((List.range N).map fun r => (modeAYield raw r).targets).flatten =
      (modeBYield raw).targets ∧
    ((List.range N).map fun r => (modeAYield raw r).weights).flatten =
      (modeBYield raw).weights := by
  refine ⟨?_, ?_, ?_⟩
  · subst hN
    simp only [modeAYield, modeBYield, permute0312]
    have h1 : ((List.range raw.inputs.length).map
          fun r => List.map permute201 (raw.inputs.getD r [])) =
        List.map (List.map permute201)
          ((List.range raw.inputs.length).map fun r => raw.inputs.getD r []) := by
      rw [List.map_map]
      rfl
    rw [h1, list_range_map_getD]
    exact (List.map_flatten permute201 raw.inputs).symm
  · rw [← ht]
    simp only [modeAYield, modeBYield]
    rw [list_range_map_getD]
  · rw [← hw]
    simp only [modeAYield, modeBYield]
    rw [list_range_map_getD]

/-- A concrete two-worker upstream batch used to witness C2. -/
def rawSmall : RawBatch ℕ ℕ ℕ :=
  { inputs := [[[[[1]]]], [[[[2]]]]]
    targets := [[3], [4]]
    weights := [[1], [0]] }

/-- Witness for C2 at a concrete two-worker batch. -/
theorem C2_witness :
    rawSmall.inputs.length = 2 ∧ rawSmall.targets.length = 2 ∧
    rawSmall.weights.length = 2 ∧
    (((List.range 2).map fun r => (modeAYield rawSmall r).inputs).flatten =
        (modeBYield rawSmall).inputs ∧
      ((List.range 2).map fun r => (modeAYield rawSmall r).targets).flatten =
        (modeBYield rawSmall).targets ∧
      ((List.range 2).map fun r => (modeAYield rawSmall r).weights).flatten =
        (modeBYield rawSmall).weights) :=
  ⟨rfl, rfl, rfl, C2_distribution_preserves_content rawSmall 2 rfl rfl rfl⟩

/-- Unfolding of a rank-2 shape check. -/
theorem shapeIs2_parts {t : T2 α} {a b : ℕ} (h : shapeIs2 t a b = true) :
    t.length = a ∧ ∀ x ∈ t, shapeIs1 x b = true := by
  simpa [shapeIs2, Bool.and_eq_true, beq_iff_eq, List.all_eq_true] using h

/-- Unfolding of a rank-5 shape check. -/
theorem shapeIs5_parts {t : T5 α} {a b c d e : ℕ}
    (h : shapeIs5 t a b c d e = true) :
    t.length = a ∧ ∀ x ∈ t, shapeIs4 x b c d e = true := by
  simpa [shapeIs5, Bool.and_eq_true, beq_iff_eq, List.all_eq_true] using h

/-- In-range `getD` produces a member of the list. -/
theorem getD_mem {X : Type} (t : List X) (d : X) {r : ℕ} (h : r < t.length) :
    t.getD r d ∈ t := by
  rw [List.getD_eq_getElem t d h]
  exact List.getElem_mem h

/-- Flattening a list whose members all have length `B` yields a list of
length `length * B`. -/
theorem flatten_length_uniform {X : Type} (t : List (List X)) (B : ℕ)
    (h : ∀ x ∈ t, x.length = B) : t.flatten.length = t.length * B := by
  rw [List.length_flatten, List.sum_eq_card_nsmul (t.map List.length) B ?_]
  · simp [smul_eq_mul]
  · intro x hx
    obtain ⟨y, hy, rfl⟩ := List.mem_map.mp hx
    exact h y hy

/-- Flattening the worker axis of an `[N, B]` tensor gives an `[N * B]` one. -/
theorem shapeIs1_flatten {t : T2 α} {N B : ℕ} (h : shapeIs2 t N B = true) :
    shapeIs1 t.flatten (N * B) = true := by
  obtain ⟨h1, h2⟩ := shapeIs2_parts h
  simp only [shapeIs1, beq_iff_eq]
  rw [flatten_length_uniform t B fun x hx => by simpa [shapeIs1] using h2 x hx, h1]

/-- Flattening the worker axis of an `[N, B, c, d, e]` tensor gives an
`[N * B, c, d, e]` one. -/
theorem shapeIs4_flatten {t : T5 α} {N B c d e : ℕ}
    (h : shapeIs5 t N B c d e = true) :
    shapeIs4 t.flatten (N * B) c d e = true := by
  obtain ⟨h1, h2⟩ := shapeIs5_parts h
  simp only [shapeIs4, Bool.and_eq_true, beq_iff_eq, List.all_eq_true]
  constructor
  · rw [flatten_length_uniform t B ?_, h1]
    intro x hx
    have hx4 := h2 x hx
    simp only [shapeIs4, Bool.and_eq_true, beq_iff_eq] at hx4
    exact hx4.1
  · intro x hx
    obtain ⟨l, hl, hxl⟩ := List.mem_flatten.mp hx
    have h4 := h2 l hl
    simp only [shapeIs4, Bool.and_eq_true, beq_iff_eq, List.all_eq_true] at h4
    exact h4.2 x hxl

/-- `permute201` turns an `[h, w, c]`-shaped example into a `[c, h, w]`-shaped
one (for non-degenerate `h`, `w`, as in the fixed `[28, 28, 1]` MNIST case). -/
theorem permute201_shape [Inhabited α] {x : T3 α} {h w c : ℕ}
    (hh : 0 < h) (hw : 0 < w) (hx : shapeIs3 x h w c = true) :
    shapeIs3 (permute201 x) c h w = true := by
  cases x with
  | nil =>
    exfalso
    simp only [shapeIs3, Bool.and_eq_true, beq_iff_eq, List.length_nil] at hx
    omega
  | cons y ys =>
    simp only [shapeIs3, Bool.and_eq_true, beq_iff_eq, List.all_eq_true] at hx
    have hlen : (y :: ys).length = h := hx.1
    have hy : shapeIs2 y w c = true := hx.2 y (List.mem_cons_self y ys)
    obtain ⟨hyw, hymem⟩ := shapeIs2_parts hy
    cases y with
    | nil =>
      exfalso
      simp only [List.length_nil] at hyw
      omega
    | cons z zs =>
      have hzc : z.length = c := by
        simpa [shapeIs1] using hymem z (List.mem_cons_self z zs)
      simp only [permute201, List.headD_cons, hzc, hyw, hlen]
      simp [shapeIs3, shapeIs2, shapeIs1, List.all_eq_true, List.mem_map,
        List.mem_range]

/-- `permute(0, 3, 1, 2)` turns an `[n, h, w, c]`-shaped tensor into an
`[n, c, h, w]`-shaped one. -/
theorem permute0312_shape [Inhabited α] {t : T4 α} {n h w c : ℕ}
    (hh : 0 < h) (hw : 0 < w) (ht : shapeIs4 t n h w c = true) :
    shapeIs4 (permute0312 t) n c h w = true := by
  simp only [shapeIs4, Bool.and_eq_true, beq_iff_eq, List.all_eq_true] at ht ⊢
  refine ⟨by simp [permute0312, ht.1], ?_⟩
  intro x hx
  simp only [permute0312, List.mem_map] at hx
  obtain ⟨y, hy, rfl⟩ := hx
  exact permute201_shape hh hw (ht.2 y hy)

/-- C5 exactly as stated: on either distribution path, every batch the input
queue yields has `inputs` of shape `[per_device_batch_size, 1, 28, 28]` and
`targets`/`weights` of length `per_device_batch_size`. -/
def perDeviceShapeClaim : Prop :=
  ∀ (ddp : Bool) (N g r : ℕ) (raw : RawBatch ℕ ℕ ℕ),
    0 < N → N ∣ g → (ddp = true → r < N) → (ddp = false → r = 0) →
    shapeIs5 raw.inputs N (perDeviceBatchSize g N) 28 28 1 = true →
    shapeIs2 raw.targets N (perDeviceBatchSize g N) = true →
    shapeIs2 raw.weights N (perDeviceBatchSize g N) = true →
    shapeIs4 (buildInputQueueYield ddp raw r).inputs
        (perDeviceBatchSize g N) 1 28 28 = true ∧
    shapeIs1 (buildInputQueueYield ddp raw r).targets
        (perDeviceBatchSize g N) = true ∧
    shapeIs1 (buildInputQueueYield ddp raw r).weights
        (perDeviceBatchSize g N) = true

/-- A concrete upstream batch for two workers of per-device size two:
`inputs : [2, 2, 28, 28, 1]`, `targets`, `weights : [2, 2]`. -/
def rawMnistExample : RawBatch ℕ ℕ ℕ :=
  { inputs := List.replicate 2 (List.replicate 2
      (List.replicate 28 (List.replicate 28 [0])))
    targets := List.replicate 2 (List.replicate 2 0)
    weights := List.replicate 2 (List.replicate 2 1) }

/-- C5 as stated is false: on the single-process path with two devices and
global batch size four, the yielded batch has four targets, not the
per-device two. -/
theorem C5_counterexample : ¬ perDeviceShapeClaim := by
  intro h
  have h2 := (h false 2 4 0 rawMnistExample (by decide) (by decide) (by decide)
      (by decide) (by decide) (by decide) (by decide)).2.1
  exact absurd h2 (by decide)

/-- C5 amended: on the multi-process DDP path every rank's batch has the
per-device shapes (`inputs : [per_device_batch_size, 1, 28, 28]`,
`targets`/`weights : [per_device_batch_size]`); on the single-process path
the one yielded batch instead has `global_batch_size` examples
(`inputs : [global_batch_size, 1, 28, 28]`, `targets`/`weights` of length
`global_batch_size`). -/
theorem C5_amended_yield_shapes {α β γ : Type} [Inhabited α] (ddp : Bool)
    (N g r : ℕ) (raw : RawBatch α β γ) (hN : 0 < N) (hdvd : N ∣ g)
    (hr : ddp = true → r < N)
    (hin : shapeIs5 raw.inputs N (perDeviceBatchSize g N) 28 28 1 = true)
    (htg : shapeIs2 raw.targets N (perDeviceBatchSize g N) = true)
    (hwt : shapeIs2 raw.weights N (perDeviceBatchSize g N) = true) :
    (ddp = true →
      shapeIs4 (buildInputQueueYield ddp raw r).inputs
          (perDeviceBatchSize g N) 1 28 28 = true ∧
      shapeIs1 (buildInputQueueYield ddp raw r).targets
          (perDeviceBatchSize g N) = true ∧
      shapeIs1 (buildInputQueueYield ddp raw r).weights
          (perDeviceBatchSize g N) = true) ∧
    (ddp = false →
      shapeIs4 (buildInputQueueYield ddp raw r).inputs g 1 28 28 = true ∧
      shapeIs1 (buildInputQueueYield ddp raw r).targets g = true ∧
      shapeIs1 (buildInputQueueYield ddp raw r).weights g = true) := by
  have hg : N * perDeviceBatchSize g N = g := Nat.mul_div_cancel' hdvd
  constructor
  · intro hd
    subst hd
    have hrN := hr rfl
    simp only [buildInputQueueYield, if_true, modeAYield]
    obtain ⟨hin1, hin2⟩ := shapeIs5_parts hin
    obtain ⟨htg1, htg2⟩ := shapeIs2_parts htg
    obtain ⟨hwt1, hwt2⟩ := shapeIs2_parts hwt
    refine ⟨?_, ?_, ?_⟩
    · exact permute0312_shape (by omega) (by omega)
        (hin2 _ (getD_mem raw.inputs [] (hin1 ▸ hrN)))
    · exact htg2 _ (getD_mem raw.targets [] (htg1 ▸ hrN))
    · exact hwt2 _ (getD_mem raw.weights [] (hwt1 ▸ hrN))
  · intro hd
    subst hd
    simp only [buildInputQueueYield, Bool.false_eq_true, if_false, modeBYield]
    refine ⟨?_, ?_, ?_⟩
    · exact permute0312_shape (by omega) (by omega) (hg ▸ shapeIs4_flatten hin)
    · exact hg ▸ shapeIs1_flatten htg
    · exact hg ▸ shapeIs1_flatten hwt

/-- Witness for the amended C5 on the DDP path: two workers, global batch
size four, rank one. -/
theorem C5_witness :
    0 < 2 ∧ (2 ∣ 4) ∧ (true = true → 1 < 2) ∧
    shapeIs5 rawMnistExample.inputs 2 (perDeviceBatchSize 4 2) 28 28 1 = true ∧
    shapeIs2 rawMnistExample.targets 2 (perDeviceBatchSize 4 2) = true ∧
    shapeIs2 rawMnistExample.weights 2 (perDeviceBatchSize 4 2) = true ∧
    ((true = true →
      shapeIs4 (buildInputQueueYield true rawMnistExample 1).inputs
          (perDeviceBatchSize 4 2) 1 28 28 = true ∧
      shapeIs1 (buildInputQueueYield true rawMnistExample 1).targets
          (perDeviceBatchSize 4 2) = true ∧
      shapeIs1 (buildInputQueueYield true rawMnistExample 1).weights
          (perDeviceBatchSize 4 2) = true) ∧
    (true = false →
      shapeIs4 (buildInputQueueYield true rawMnistExample 1).inputs 4 1 28 28 = true ∧
      shapeIs1 (buildInputQueueYield true rawMnistExample 1).targets 4 = true ∧
      shapeIs1 (buildInputQueueYield true rawMnistExample 1).weights 4 = true)) :=
  ⟨by decide, by decide, by decide, by decide, by decide, by decide,
    C5_amended_yield_shapes true 2 4 1 rawMnistExample (by decide) (by decide)
      (by decide) (by decide) (by decide) (by decide)⟩

end MnistPytorch
